import Mathlib

/-
Formal model of the sghi-commons utility library (Python), shallowly embedded
in Lean 4. Each definition mirrors a function or method of the Python source:

  * Registry      -- src/sghi/registry/__init__.py   (_RegistryImp)
  * Dispatcher    -- src/sghi/dispatch/__init__.py   (_DispatcherImp)
  * Retry         -- src/sghi/retry/__init__.py      (_ExponentialBackOffRetry)
  * Config        -- src/sghi/config/__init__.py     (_ConfigImp)
  * Exceptions    -- src/sghi/exceptions.py          (SGHIError)

Python dictionaries are embedded as association lists keyed by String where
the key order is the dict insertion order; Python None is represented by
Option.none where a value can be absent; exceptions are represented by
Except with an explicit error type; wall-clock time, random sampling and
the return values of wrapped callables are supplied as oracles (functions
from a call counter), since they are external inputs of the code.
-/

set_option autoImplicit false

namespace SGHI

/-! ## Registry (src/sghi/registry/__init__.py, class _RegistryImp)

The items of a registry live in the dict self._items : dict[str, Any].
Signals sent on the bundled dispatcher during an operation are returned
explicitly, in emission order; the returned item list is the state of
self._items after the operation (each signal is emitted only after the
corresponding mutation has been applied, exactly as in the source where
the dict statement precedes the dispatcher.send call). -/

/-- Signals of the registry: RegistryItemSet (key and value) and
RegistryItemRemoved (key only). -/
inductive RSignal (V : Type) where
  | itemSet (key : String) (value : V)
  | itemRemoved (key : String)
deriving DecidableEq

/-- Errors raised by registry operations: ValueError from ensure_not_none on a
None key, and NoSuchRegistryItemError (a LookupError) carrying the key. -/
inductive RegErr where
  | valueError
  | noSuchRegistryItem (key : String)
deriving DecidableEq

/-- ensure_not_none (src/sghi/utils/checkers.py): raise ValueError if the
value is None, return it unchanged otherwise. -/
def ensureNotNone {A : Type} : Option A → Except RegErr A
  | none => .error .valueError
  | some a => .ok a

/-- A Python dict[str, V] as an association list (keys unique, in insertion
order). Lookup returns the value of the first (only) entry with that key. -/
def lookupItem {V : Type} : List (String × V) → String → Option V
  | [], _ => none
  | e :: rest, s => if e.1 = s then some e.2 else lookupItem rest s

/-- Dict item assignment: replace the value of an existing key in place, or
append a new entry at the end (dict insertion order). -/
def storeItem {V : Type} : List (String × V) → String → V → List (String × V)
  | [], s, v => [(s, v)]
  | e :: rest, s, v =>
      if e.1 = s then (e.1, v) :: rest else e :: storeItem rest s v

/-- Dict item deletion: drop the entry with the given key. -/
def removeItem {V : Type} : List (String × V) → String → List (String × V)
  | [], _ => []
  | e :: rest, s => if e.1 = s then rest else e :: removeItem rest s

/-- Result of a registry operation: the returned value, the items after the
operation, and the signals emitted on the dispatcher, in order. -/
structure RegOut (V A : Type) where
  ret : A
  items : List (String × V)
  emitted : List (RSignal V)
deriving DecidableEq

/-- _RegistryImp.__contains__: key in self._items. There is no
ensure_not_none here, so a None key is simply not found (None is never equal
to a str key) and the method returns False. -/
def regContains {V : Type} (items : List (String × V)) (key : Option String) :
    Bool :=
  match key with
  | none => false
  | some s => (lookupItem items s).isSome

/-- _RegistryImp.__getitem__: ensure_not_none on the key, then the item value
or NoSuchRegistryItemError. -/
def regGetItem {V : Type} (items : List (String × V)) (key : Option String) :
    Except RegErr V :=
  match ensureNotNone key with
  | .error e => .error e
  | .ok k =>
      match lookupItem items k with
      | some v => .ok v
      | none => .error (.noSuchRegistryItem k)

/-- _RegistryImp.get: ensure_not_none on the key, then
self._items.get(key, default). -/
def regGet {V : Type} (items : List (String × V)) (key : Option String)
    (default : V) : Except RegErr V :=
  match ensureNotNone key with
  | .error e => .error e
  | .ok k => .ok ((lookupItem items k).getD default)

/-- _RegistryImp.__setitem__: ensure_not_none on the key, store the value,
then send RegistryItemSet(key, value). -/
def regSetItem {V : Type} (items : List (String × V)) (key : Option String)
    (value : V) : Except RegErr (RegOut V Unit) :=
  match ensureNotNone key with
  | .error e => .error e
  | .ok k => .ok ⟨(), storeItem items k value, [.itemSet k value]⟩

/-- _RegistryImp.__delitem__: ensure_not_none on the key; del the item then
send RegistryItemRemoved(key); a KeyError from the del becomes
NoSuchRegistryItemError (and nothing is emitted). -/
def regDelItem {V : Type} (items : List (String × V)) (key : Option String) :
    Except RegErr (RegOut V Unit) :=
  match ensureNotNone key with
  | .error e => .error e
  | .ok k =>
      match lookupItem items k with
      | some _ => .ok ⟨(), removeItem items k, [.itemRemoved k]⟩
      | none => .error (.noSuchRegistryItem k)

/-- _RegistryImp.pop: ensure_not_none on the key; pop the item then send
RegistryItemRemoved(key) and return the popped value; a KeyError from the pop
returns the default (and nothing is emitted). -/
def regPop {V : Type} (items : List (String × V)) (key : Option String)
    (default : V) : Except RegErr (RegOut V V) :=
  match ensureNotNone key with
  | .error e => .error e
  | .ok k =>
      match lookupItem items k with
      | some v => .ok ⟨v, removeItem items k, [.itemRemoved k]⟩
      | none => .ok ⟨default, items, []⟩

/-- _RegistryImp.setdefault: try self[key] (that is, regGetItem); on
LookupError (only NoSuchRegistryItemError qualifies) run self[key] = value
(that is, regSetItem, which emits RegistryItemSet) and return the value. -/
def regSetdefault {V : Type} (items : List (String × V)) (key : Option String)
    (value : V) : Except RegErr (RegOut V V) :=
  match ensureNotNone key with
  | .error e => .error e
  | .ok k =>
      match regGetItem items (some k) with
      | .ok v => .ok ⟨v, items, []⟩
      | .error (.noSuchRegistryItem _) =>
          match regSetItem items (some k) value with
          | .ok out => .ok ⟨value, out.items, out.emitted⟩
          | .error e => .error e
      | .error .valueError => .error .valueError

/-! ## Dispatcher (src/sghi/dispatch/__init__.py, class _DispatcherImp)

The receiver set for one signal type holds either receivers themselves
(weak=False) or weak references to them (weak=True). A weak reference whose
referent has been collected dereferences to None. Receiver identities are
abstract (type R); what a receiver does when invoked is supplied as a
behavior oracle (it either returns or raises). The send loop is
instrumented to return the receivers invoked, in iteration order, together
with the exception that propagated out of send, if any. -/

/-- An entry of the receiver set: a receiver held strongly, or a weak
reference together with the liveness of its referent. -/
inductive Entry (R : Type) where
  | strong (r : R)
  | weakRef (r : R) (alive : Bool)
deriving DecidableEq

/-- _DispatcherImp._dereference_as_necessary: a weak reference is
dereferenced (None when dead); a strong entry is returned as is. -/
def derefEntry {R : Type} : Entry R → Option R
  | .strong r => some r
  | .weakRef r alive => if alive then some r else none

/-- _DispatcherImp._live_receivers: dereference every entry and keep the
live (non-None) results. -/
def liveReceivers {R : Type} (entries : List (Entry R)) : List R :=
  entries.filterMap derefEntry

/-- What a receiver does when invoked with the signal: return normally or
raise an exception. -/
inductive Outcome (E : Type) where
  | ok
  | fail (e : E)
deriving DecidableEq

/-- The loop body of _DispatcherImp.send over the live receivers: invoke each
receiver; on an exception, re-raise it if robust is False (halting the loop),
log it and continue if robust is True. Returns the invoked receivers in
order, and the exception propagated out of send, if any. -/
def sendLoop {R E : Type} (robust : Bool) (behavior : R → Outcome E) :
    List R → List R × Option E
  | [] => ([], none)
  | r :: rest =>
    match behavior r with
    | .ok =>
        let res := sendLoop robust behavior rest
        (r :: res.1, res.2)
    | .fail e =>
        if robust then
          let res := sendLoop robust behavior rest
          (r :: res.1, res.2)
        else ([r], some e)

/-- _DispatcherImp.send: iterate over the live receivers registered for the
type of the signal. -/
def send {R E : Type} (robust : Bool) (behavior : R → Outcome E)
    (entries : List (Entry R)) : List R × Option E :=
  sendLoop robust behavior (liveReceivers entries)

/-! ## Retry (src/sghi/retry/__init__.py, class _ExponentialBackOffRetry)

Durations and instants are rationals (seconds). The randomness of
random.uniform and the wall clock of datetime.now are oracles: sample k hi
is the value returned by the k-th uniform(0.0, hi) call, and clock i is the
instant returned by the i-th datetime.now() call of one wrapper invocation
(clock 0 inside _calculate_deadline_time, clock (k+1) inside the
_deliberate_next_retry that follows the k-th failed call of the wrapped
callable). The wrapped callable is an oracle from the invocation counter to
a result or a raised exception. -/

/-- The configuration held by an _ExponentialBackOffRetry (the retry
predicate is passed separately where needed). -/
structure BackoffCfg where
  initialDelay : ℚ
  maximumDelay : ℚ
  timeout : Option ℚ
  factor : ℚ
deriving DecidableEq

/-- ValueError raised by the argument checks of
_ExponentialBackOffRetry.__init__. -/
inductive ArgErr where
  | valueError
deriving DecidableEq

/-- _ExponentialBackOffRetry.__init__: ensure_greater_than(initial_delay, 0),
ensure_greater_or_equal(maximum_delay, initial_delay),
ensure_greater_than(multiplicative_factor, 0). The timeout is not checked. -/
def mkExponentialBackOffRetry (initialDelay maximumDelay : ℚ)
    (timeout : Option ℚ) (factor : ℚ) : Except ArgErr BackoffCfg :=
  if ¬ (0 < initialDelay) then .error .valueError
  else if ¬ (initialDelay ≤ maximumDelay) then .error .valueError
  else if ¬ (0 < factor) then .error .valueError
  else .ok ⟨initialDelay, maximumDelay, timeout, factor⟩

/-- _ExponentialBackOffRetry._calculate_deadline_time:
now() + timedelta(seconds=timeout) if timeout else None. The condition is
Python truthiness of the float, so both None and 0 give no deadline. -/
def calculateDeadlineTime (cfg : BackoffCfg) (now : ℚ) : Option ℚ :=
  match cfg.timeout with
  | none => none
  | some t => if t = 0 then none else some (now + t)

/-- The RetryError raised when the retry is exhausted: it records the last
underlying exception as its cause, and its message text interpolates the
configured timeout (the model keeps the interpolated number). -/
structure RetryFailure (E : Type) where
  cause : E
  msgTimeout : Option ℚ
deriving DecidableEq

/-- _ExponentialBackOffRetry._deliberate_next_retry: without a deadline
return the delay unchanged; with a deadline, raise RetryError if now is past
the deadline, else clamp the delay to the remaining time. -/
def deliberateNextRetry {E : Type} (cfg : BackoffCfg)
    (nextDelayDuration : ℚ) (deadlineTime : Option ℚ) (now : ℚ)
    (lastExp : E) : Except (RetryFailure E) ℚ :=
  match deadlineTime with
  | none => .ok nextDelayDuration
  | some dl =>
      if dl < now then .error ⟨lastExp, cfg.timeout⟩
      else .ok (min (dl - now) nextDelayDuration)

/-- _ExponentialBackOffRetry._exponential_delay_generator, unrolled to its
first n yields: starting from the local variable delay = d and an absolute
uniform-call counter k, each round yields
min(uniform(0.0, delay * 2.0), maximum_delay) and then multiplies delay by
the multiplicative factor. -/
def delaysFrom (cfg : BackoffCfg) (sample : Nat → ℚ → ℚ) :
    Nat → ℚ → Nat → List ℚ
  | _, _, 0 => []
  | k, d, n + 1 =>
      min (sample k (d * 2)) cfg.maximumDelay ::
        delaysFrom cfg sample (k + 1) (d * cfg.factor) n

/-- The delay base of the spec, written exactly as the spec recurrence
states it: base 0 = initial_delay and base (n+1) = base n * factor. Used
only to compare the generator of the source against the spec formula. -/
def specDelayBase (cfg : BackoffCfg) : Nat → ℚ
  | 0 => cfg.initialDelay
  | n + 1 => specDelayBase cfg n * cfg.factor

/-- Result of one invocation of the wrapped callable produced by retry(f). -/
inductive RetryResult (E A : Type) where
  | ok (a : A)
  | raised (e : E)
  | retryFailed (rf : RetryFailure E)
  | outOfFuel
deriving DecidableEq

/-- Instrumented trace of one invocation of the wrapper: the outcome, the
number of calls made to the wrapped callable, and the slept delays in
order. -/
structure RunTrace (E A : Type) where
  result : RetryResult E A
  calls : Nat
  sleeps : List ℚ
deriving DecidableEq

/-- The loop of do_retry (the wrapper built by
_ExponentialBackOffRetry.retry): pull the next delay from the generator,
call f; return its result on success; re-raise immediately if the predicate
rejects the exception; otherwise run _deliberate_next_retry (which may raise
RetryError), sleep the resulting delay and go round again. The loop of the
source is unbounded; fuel bounds the model, with outOfFuel marking fuel
exhaustion (never reached in any run that terminates within the fuel). -/
def doRetryLoop {E A : Type} (cfg : BackoffCfg) (pred : E → Bool)
    (f : Nat → Except E A) (sample : Nat → ℚ → ℚ) (clock : Nat → ℚ)
    (deadline : Option ℚ) : Nat → Nat → ℚ → RunTrace E A
  | 0, k, _ => ⟨.outOfFuel, k, []⟩
  | fuel + 1, k, d =>
    let delay0 := min (sample k (d * 2)) cfg.maximumDelay
    match f k with
    | .ok a => ⟨.ok a, k + 1, []⟩
    | .error e =>
        if pred e then
          match deliberateNextRetry cfg delay0 deadline (clock (k + 1)) e with
          | .error rf => ⟨.retryFailed rf, k + 1, []⟩
          | .ok delay =>
              let rest :=
                doRetryLoop cfg pred f sample clock deadline fuel (k + 1)
                  (d * cfg.factor)
              ⟨rest.result, rest.calls, delay :: rest.sleeps⟩
        else ⟨.raised e, k + 1, []⟩

/-- One invocation of the wrapper built by _ExponentialBackOffRetry.retry:
compute the absolute deadline once from the start instant of this invocation
(clock 0), then run the retry loop from call 0 with the local generator
delay variable starting at initial_delay. -/
def doRetry {E A : Type} (cfg : BackoffCfg) (pred : E → Bool)
    (f : Nat → Except E A) (sample : Nat → ℚ → ℚ) (clock : Nat → ℚ)
    (fuel : Nat) : RunTrace E A :=
  doRetryLoop cfg pred f sample clock (calculateDeadlineTime cfg (clock 0))
    fuel 0 cfg.initialDelay

/-! ## Config (src/sghi/config/__init__.py, class _ConfigImp)

Setting values are Python objects that may be None: they are modelled as
Option B, with Option.none playing Python None. The settings dict is an
association list (insertion order); lookupItem and storeItem above give the
dict read and write. An initializer is a Task with a setting name and an
execute function (has_secrets only affects logging and is omitted). -/

/-- SettingInitializer: a task bound to one setting name. Its execute method
maps the raw (possibly None) value to the value to store. -/
structure SettingInitializer (B : Type) where
  setting : String
  execute : Option B → Option B

/-- Pipe.execute (src/sghi/task/__init__.py): apply tasks[0] to the input,
then fold the remaining tasks left to right, each consuming the output of
the previous one. A Pipe is constructed with a nonempty task list; the nil
case below is never reached from the config code (see
groupRelated_mem_nonempty). -/
def pipeExecute {B : Type} : List (SettingInitializer B) → Option B → Option B
  | [], x => x
  | t :: ts, x => ts.foldl (fun acc tk => tk.execute acc) (t.execute x)

/-- One step of _ConfigImp._group_related_initializers: dict
setdefault(setting, []).append(initializer) on an insertion-ordered dict of
lists. -/
def addToGroups {B : Type} (gs : List (String × List (SettingInitializer B)))
    (i : SettingInitializer B) : List (String × List (SettingInitializer B)) :=
  match gs with
  | [] => [(i.setting, [i])]
  | g :: rest =>
      if g.1 = i.setting then (g.1, g.2 ++ [i]) :: rest
      else g :: addToGroups rest i

/-- _ConfigImp._group_related_initializers: group the initializers by their
setting name, preserving encounter order within each group and first
encounter order between groups. -/
def groupRelated {B : Type} (inits : List (SettingInitializer B)) :
    List (String × List (SettingInitializer B)) :=
  inits.foldl addToGroups []

/-- _ConfigImp._run_initializers over the settings dict: for each grouped
setting in order, read the raw value (self._settings.get, so None when
absent), run the pipe of its initializers on the raw value, and store the
output as the new value of the setting. -/
def runGroups {B : Type} (settings : List (String × Option B))
    (groups : List (String × List (SettingInitializer B))) :
    List (String × Option B) :=
  groups.foldl
    (fun st g =>
      storeItem st g.1 (pipeExecute g.2 ((lookupItem st g.1).getD none)))
    settings

/-- _ConfigImp.__init__ viewed through the contents of self._settings:
dict(settings) copies the caller mapping, then the grouped initializers are
run exactly once. The result is the final, immutable settings dict. -/
def configOf {B : Type} (settings : List (String × Option B))
    (inits : List (SettingInitializer B)) : List (String × Option B) :=
  runGroups settings (groupRelated inits)

/-! ### A store model of _ConfigImp.__init__ for the frame property

To state that construction never mutates the caller mapping, dicts are given
identities: a store maps references (Nat) to dict contents, with a bump
allocator. The constructor allocates a fresh dict holding a copy of the
caller dict (the dict(settings or \x7b\x7d) expression) and
_run_initializers writes only through that fresh reference. -/

/-- A heap of dicts: contents per reference, plus the next fresh
reference. -/
structure Store (B : Type) where
  mem : Nat → List (String × Option B)
  next : Nat

/-- Overwrite the dict at an existing reference. -/
def writeRef {B : Type} (st : Store B) (r : Nat)
    (d : List (String × Option B)) : Store B :=
  ⟨fun x => if x = r then d else st.mem x, st.next⟩

/-- Allocate a fresh dict initialized with the given contents; returns the
new store and the fresh reference. -/
def allocRef {B : Type} (st : Store B) (d : List (String × Option B)) :
    Store B × Nat :=
  (⟨fun x => if x = st.next then d else st.mem x, st.next + 1⟩, st.next)

/-- _ConfigImp._run_initializers as store operations: every read and every
write goes through the self._settings reference. -/
def runInitializersRef {B : Type} (selfRef : Nat)
    (groups : List (String × List (SettingInitializer B))) (st : Store B) :
    Store B :=
  groups.foldl
    (fun acc g =>
      let d := acc.mem selfRef
      writeRef acc selfRef
        (storeItem d g.1 (pipeExecute g.2 ((lookupItem d g.1).getD none))))
    st

/-- _ConfigImp.__init__ as store operations: copy the caller dict into a
fresh dict (self._settings = dict(settings or \x7b\x7d)), group the
initializers, and run them through the fresh reference. Returns the store
after construction and the reference held by the new config. -/
def configImpInitRef {B : Type} (st : Store B) (settingsRef : Nat)
    (inits : List (SettingInitializer B)) : Store B × Nat :=
  let alloc := allocRef st (st.mem settingsRef)
  (runInitializersRef alloc.2 (groupRelated inits) alloc.1, alloc.2)

/-! ## SGHIError and SettingRequiredError (src/sghi/exceptions.py and
src/sghi/config/__init__.py) -/

/-- The data carried by an SGHIError: the _message attribute (None when the
caller gave none) and the first positional arg handed to Exception, which
is self._message or the empty string. -/
structure SGHIErrorData where
  message : Option String
  arg0 : String
deriving DecidableEq

/-- SGHIError.__init__: store the message as given; pass message-or-empty to
the Exception base. -/
def mkSGHIError (message : Option String) : SGHIErrorData :=
  ⟨message, message.getD ""⟩

/-- A single quote character, for building the f-string text. -/
def squote : String := String.singleton (Char.ofNat 39)

/-- The default text computed by SettingRequiredError.__init__:
Setting (quote)name(quote) is required. -/
def settingRequiredDefaultMsg (setting : String) : String :=
  "Setting " ++ squote ++ setting ++ squote ++ " is required."

/-- Python string truthiness for the expression message or default: None and
the empty string are falsy. -/
def pyStrOr (m : Option String) (d : String) : String :=
  match m with
  | none => d
  | some s => if s = "" then d else s

/-- The data carried by a SettingRequiredError: the setting name and the
SGHIError base. -/
structure SettingRequiredErrorData where
  setting : String
  base : SGHIErrorData
deriving DecidableEq

/-- SettingRequiredError.__init__: ensure_not_none_nor_empty on the setting
name; compute the default message into the local _message; then call the
parent constructor with the ORIGINAL message parameter, leaving _message
unused — exactly as the source does on line 177 of
src/sghi/config/__init__.py. -/
def mkSettingRequiredError (setting : Option String)
    (message : Option String) : Except ArgErr SettingRequiredErrorData :=
  match setting with
  | none => .error .valueError
  | some s =>
      if s = "" then .error .valueError
      else
        let _message := pyStrOr message (settingRequiredDefaultMsg s)
        .ok ⟨s, mkSGHIError message⟩

/-! ## Theorems -/

/-- Writing a key and reading it back gives the written value. -/
theorem lookupItem_storeItem_self {V : Type} (items : List (String × V))
    (k : String) (v : V) : lookupItem (storeItem items k v) k = some v := by
  induction items with
  | nil => simp [storeItem, lookupItem]
  | cons e rest ih =>
      by_cases h : e.1 = k
      · simp [storeItem, lookupItem, h]
      · simp [storeItem, lookupItem, h, ih]

/-- C1: for a registry built by Registry.of, every successful mutation emits
exactly one signal after the mutation is applied: set stores the value
(a get then returns it) and emits exactly one RegistryItemSet with the key
and value; delete on an existing key and a pop that removes each emit
exactly one RegistryItemRemoved with the key, with the item gone from the
returned state; delete on a missing key raises NoSuchRegistryItemError and
emits nothing; pop on a missing key returns the default and emits nothing;
setdefault on an existing key returns the existing value and emits nothing;
setdefault on a missing key inserts and emits exactly one RegistryItemSet. -/
theorem registry_mutation_signal_discipline {V : Type}
    (items : List (String × V)) (k : String) (v default w : V) :
    (regSetItem items (some k) v =
        .ok ⟨(), storeItem items k v, [.itemSet k v]⟩
      ∧ lookupItem (storeItem items k v) k = some v)
    ∧ (lookupItem items k = some w →
        regDelItem items (some k) =
          .ok ⟨(), removeItem items k, [.itemRemoved k]⟩)
    ∧ (lookupItem items k = none →
        regDelItem items (some k) = .error (.noSuchRegistryItem k))
    ∧ (lookupItem items k = some w →
        regPop items (some k) default =
          .ok ⟨w, removeItem items k, [.itemRemoved k]⟩)
    ∧ (lookupItem items k = none →
        regPop items (some k) default = .ok ⟨default, items, []⟩)
    ∧ (lookupItem items k = some w →
        regSetdefault items (some k) v = .ok ⟨w, items, []⟩)
    ∧ (lookupItem items k = none →
        regSetdefault items (some k) v =
          .ok ⟨v, storeItem items k v, [.itemSet k v]⟩) := by
  refine ⟨⟨rfl, lookupItem_storeItem_self items k v⟩, ?_, ?_, ?_, ?_, ?_, ?_⟩ <;>
    intro h <;>
    simp [regDelItem, regPop, regSetdefault, regGetItem, regSetItem,
      ensureNotNone, h]

/-- Witness for C1 on a one-item registry, exercising both the
present-key and missing-key branch of every operation. -/
theorem registry_mutation_signal_discipline_witness :
    regSetItem [("A", 1)] (some "A") 2 =
        .ok ⟨(), [("A", 2)], [.itemSet "A" 2]⟩
    ∧ regDelItem [("A", 1)] (some "A") = .ok ⟨(), [], [.itemRemoved "A"]⟩
    ∧ regDelItem [("A", (1 : ℕ))] (some "B") =
        .error (.noSuchRegistryItem "B")
    ∧ regPop [("A", 1)] (some "A") 0 = .ok ⟨1, [], [.itemRemoved "A"]⟩
    ∧ regPop [("A", 1)] (some "B") 7 = .ok ⟨7, [("A", 1)], []⟩
    ∧ regSetdefault [("A", 1)] (some "A") 5 = .ok ⟨1, [("A", 1)], []⟩
    ∧ regSetdefault [("A", 1)] (some "B") 5 =
        .ok ⟨5, [("A", 1), ("B", 5)], [.itemSet "B" 5]⟩ :=
  ⟨(registry_mutation_signal_discipline [("A", 1)] "A" 2 0 1).1.1,
    (registry_mutation_signal_discipline [("A", 1)] "A" 2 0 1).2.1 rfl,
    (registry_mutation_signal_discipline [("A", 1)] "B" 2 0 1).2.2.1 rfl,
    (registry_mutation_signal_discipline [("A", 1)] "A" 2 0 1).2.2.2.1 rfl,
    (registry_mutation_signal_discipline [("A", 1)] "B" 2 7 1).2.2.2.2.1 rfl,
    (registry_mutation_signal_discipline [("A", 1)] "A" 5 0 1).2.2.2.2.2.1 rfl,
    (registry_mutation_signal_discipline
      [("A", 1)] "B" 5 0 1).2.2.2.2.2.2 rfl⟩

/-- C8 counterexample: contrary to the claim that every key-based operation
rejects a null key by raising, __contains__ performs no ensure_not_none
check (src/sghi/registry/__init__.py lines 373 to 374): on a None key it
operates normally and returns False, raising nothing. -/
theorem registry_contains_operates_on_none_key :
    regContains [("A", (1 : ℕ))] none = false
    ∧ regContains [("A", (1 : ℕ))] (some "A") = true := ⟨rfl, rfl⟩

/-- C8 amended: every key-based operation except __contains__ (get-by-key,
get with default, set, delete, pop, setdefault) rejects a None key by
raising ValueError; __contains__ instead treats a None key as absent and
returns False without raising. -/
theorem registry_ops_reject_none_key {V : Type} (items : List (String × V))
    (v default : V) :
    regContains items none = false
    ∧ regGetItem items none = .error .valueError
    ∧ regGet items none default = .error .valueError
    ∧ regSetItem items none v = .error .valueError
    ∧ regDelItem items none = .error .valueError
    ∧ regPop items none default = .error .valueError
    ∧ regSetdefault items none v = .error .valueError :=
  ⟨rfl, rfl, rfl, rfl, rfl, rfl, rfl⟩

/-- In robust mode the send loop invokes every receiver and swallows every
exception. -/
theorem sendLoop_robust {R E : Type} (b : R → Outcome E) (l : List R) :
    sendLoop true b l = (l, none) := by
  induction l with
  | nil => rfl
  | cons r rest ih => cases hb : b r <;> simp [sendLoop, hb, ih]

/-- In strict mode the send loop stops at the first raising receiver and
propagates its exception. -/
theorem sendLoop_strict {R E : Type} (b : R → Outcome E) (pre : List R)
    (r : R) (post : List R) (e : E) (hpre : ∀ x ∈ pre, b x = .ok)
    (hr : b r = .fail e) :
    sendLoop false b (pre ++ r :: post) = (pre ++ [r], some e) := by
  induction pre with
  | nil => simp [sendLoop, hr]
  | cons a pre ih =>
      have ha : b a = .ok := hpre a (by simp)
      have ih2 := ih fun x hx => hpre x (by simp [hx])
      simp [sendLoop, ha, ih2]

/-- C2: send(signal, robust=True) invokes every live receiver registered for
the type of the signal, in iteration order, and never raises, even when
receivers raise; send(signal, robust=False) invokes receivers up to and
including the first one that raises, propagates that exception to the
sender, and does not invoke the remaining receivers. -/
theorem dispatcher_send_robust_vs_strict {R E : Type} (b : R → Outcome E)
    (entries : List (Entry R)) :
    send true b entries = (liveReceivers entries, none)
    ∧ (∀ pre r post e, liveReceivers entries = pre ++ r :: post →
        (∀ x ∈ pre, b x = .ok) → b r = .fail e →
        send false b entries = (pre ++ [r], some e)) := by
  constructor
  · exact sendLoop_robust b _
  · intro pre r post e hsplit hpre hr
    unfold send
    rw [hsplit]
    exact sendLoop_strict b pre r post e hpre hr

/-- Witness for C2: four connected entries of which one weak reference is
dead, with the last live receiver raising. Robust delivery reaches all three
live receivers and returns; strict delivery reaches them in order, stops at
the raiser and propagates its exception. -/
theorem dispatcher_send_robust_vs_strict_witness :
    send true (fun n => if n = 3 then Outcome.fail 7 else Outcome.ok)
        [Entry.strong 0, Entry.weakRef 1 true, Entry.weakRef 2 false,
          Entry.strong 3] = ([0, 1, 3], none)
    ∧ send false (fun n => if n = 3 then Outcome.fail 7 else Outcome.ok)
        [Entry.strong 0, Entry.weakRef 1 true, Entry.weakRef 2 false,
          Entry.strong 3] = ([0, 1, 3], some 7) :=
  ⟨(dispatcher_send_robust_vs_strict _ _).1,
    (dispatcher_send_robust_vs_strict _ _).2 [0, 1] 3 [] 7 rfl (by decide)
      rfl⟩

/-- C4 counterexample: a policy constructed with timeout = 0 passes every
constructor check, its timeout is not None, and yet
_calculate_deadline_time yields no deadline, because the source guards the
computation with Python truthiness (if timeout) rather than an is-None
test. This refutes the claimed equivalence: no deadline exists if and only
if the configured timeout is None. -/
theorem retry_zero_timeout_yields_no_deadline :
    mkExponentialBackOffRetry 2 60 (some 0) 2 = .ok ⟨2, 60, some 0, 2⟩
    ∧ (⟨2, 60, some 0, 2⟩ : BackoffCfg).timeout ≠ none
    ∧ calculateDeadlineTime ⟨2, 60, some 0, 2⟩ 5 = none := by
  refine ⟨?_, by simp, by simp [calculateDeadlineTime]⟩
  norm_num [mkExponentialBackOffRetry]

/-- C4 amended: each invocation computes its deadline once, from the start
instant of that invocation: the deadline is start + timeout whenever the
configured timeout is a nonzero value, and there is no deadline if and only
if the timeout is None or 0 (the source tests Python truthiness of the
timeout, so a zero timeout also disables the deadline). Distinct invocation
start instants give distinct deadlines, so no deadline is shared across
invocations. -/
theorem retry_deadline_characterization (cfg : BackoffCfg)
    (now now1 now2 t : ℚ) :
    (calculateDeadlineTime cfg now = none ↔
      cfg.timeout = none ∨ cfg.timeout = some 0)
    ∧ (cfg.timeout = some t → t ≠ 0 →
        calculateDeadlineTime cfg now = some (now + t))
    ∧ (cfg.timeout = some t → t ≠ 0 → now1 ≠ now2 →
        calculateDeadlineTime cfg now1 ≠ calculateDeadlineTime cfg now2) := by
  refine ⟨?_, ?_, ?_⟩
  · cases h : cfg.timeout with
    | none => simp [calculateDeadlineTime, h]
    | some u => by_cases hu : u = 0 <;> simp [calculateDeadlineTime, h, hu]
  · intro ht hne
    simp [calculateDeadlineTime, ht, hne]
  · intro ht hne hnow
    simp only [calculateDeadlineTime, ht, if_neg hne, ne_eq,
      Option.some.injEq]
    exact fun h => hnow (add_right_cancel h)

/-- Witness for C4 amended at timeout 300 and start instant 10: the deadline
is 310, it is not None, and start instants 0 and 1 give different
deadlines. -/
theorem retry_deadline_characterization_witness :
    ¬ calculateDeadlineTime ⟨2, 60, some 300, 2⟩ 10 = none
    ∧ calculateDeadlineTime ⟨2, 60, some 300, 2⟩ 10 = some (10 + 300)
    ∧ calculateDeadlineTime ⟨2, 60, some 300, 2⟩ 0 ≠
        calculateDeadlineTime ⟨2, 60, some 300, 2⟩ 1 := by
  refine ⟨?_, ?_, ?_⟩
  · intro h
    rcases (retry_deadline_characterization ⟨2, 60, some 300, 2⟩ 10 0 1
        300).1.mp h with h2 | h2 <;> simp at h2
  · exact (retry_deadline_characterization ⟨2, 60, some 300, 2⟩ 10 0 1
      300).2.1 rfl (by norm_num)
  · exact (retry_deadline_characterization ⟨2, 60, some 300, 2⟩ 10 0 1
      300).2.2 rfl (by norm_num) (by norm_num)

/-- The n-th value yielded by the delay generator, for any starting state of
its local delay variable and any starting uniform-call counter. -/
theorem delaysFrom_getElem (cfg : BackoffCfg) (sample : Nat → ℚ → ℚ) :
    ∀ (N n k : Nat) (d : ℚ), n < N →
      (delaysFrom cfg sample k d N)[n]? =
        some (min (sample (k + n) (d * cfg.factor ^ n * 2))
          cfg.maximumDelay) := by
  intro N
  induction N with
  | zero => intro n k d h; omega
  | succ N ih =>
      intro n k d _h
      cases n with
      | zero => simp [delaysFrom]
      | succ n =>
          have hn : n < N := by omega
          have step := ih n (k + 1) (d * cfg.factor) hn
          have harg : k + 1 + n = k + (n + 1) := by omega
          have hbase : d * cfg.factor * cfg.factor ^ n =
              d * cfg.factor ^ (n + 1) := by ring
          simp only [delaysFrom, List.getElem?_cons_succ, step, harg, hbase]

/-- The local delay variable of the generator after n rounds equals
initial_delay times the n-th power of the multiplicative factor, which is
the closed form of the spec recurrence. -/
theorem specDelayBase_closed_form (cfg : BackoffCfg) (n : Nat) :
    specDelayBase cfg n = cfg.initialDelay * cfg.factor ^ n := by
  induction n with
  | zero => simp [specDelayBase]
  | succ n ih => rw [specDelayBase, ih, pow_succ]; ring

/-- C6: the n-th candidate delay produced by
_exponential_delay_generator equals min(uniform(0, 2 * base n),
maximum_delay) where base 0 = initial_delay and
base (n+1) = base n * multiplicative_factor; sample n is the value drawn by
the n-th uniform call, whose upper bound is exactly 2 * base n. -/
theorem retry_delay_generator_matches_spec_formula (cfg : BackoffCfg)
    (sample : Nat → ℚ → ℚ) (N n : Nat) (h : n < N) :
    (delaysFrom cfg sample 0 cfg.initialDelay N)[n]? =
      some (min (sample n (2 * specDelayBase cfg n)) cfg.maximumDelay) := by
  have h1 := delaysFrom_getElem cfg sample N n 0 cfg.initialDelay h
  have h2 : (0 : Nat) + n = n := by omega
  have h3 : cfg.initialDelay * cfg.factor ^ n * 2 =
      2 * specDelayBase cfg n := by
    rw [specDelayBase_closed_form]; ring
  rw [h1, h2, h3]

/-- Witness for C6 at index 1 of a two-yield unrolling, with initial delay
2, maximum delay 60 and factor 2. -/
theorem retry_delay_generator_matches_spec_formula_witness :
    (1 : Nat) < 2
    ∧ (delaysFrom ⟨2, 60, none, 2⟩ (fun _ hi => hi / 2) 0 2 2)[1]? =
        some (min ((fun (_ : Nat) (hi : ℚ) => hi / 2) 1
          (2 * specDelayBase ⟨2, 60, none, 2⟩ 1)) 60) :=
  ⟨by norm_num,
    retry_delay_generator_matches_spec_formula ⟨2, 60, none, 2⟩
      (fun _ hi => hi / 2) 2 1 (by norm_num)⟩

/-- A successful call of the wrapped callable ends the loop at once with its
result. -/
theorem doRetryLoop_step_ok {E A : Type} (cfg : BackoffCfg) (pred : E → Bool)
    (f : Nat → Except E A) (sample : Nat → ℚ → ℚ) (clock : Nat → ℚ)
    (deadline : Option ℚ) (fuel k : Nat) (d : ℚ) (a : A)
    (hf : f k = .ok a) :
    doRetryLoop cfg pred f sample clock deadline (fuel + 1) k d =
      ⟨.ok a, k + 1, []⟩ := by
  simp [doRetryLoop, hf]

/-- A call whose exception the predicate rejects re-raises at once. -/
theorem doRetryLoop_step_reject {E A : Type} (cfg : BackoffCfg)
    (pred : E → Bool) (f : Nat → Except E A) (sample : Nat → ℚ → ℚ)
    (clock : Nat → ℚ) (deadline : Option ℚ) (fuel k : Nat) (d : ℚ) (e : E)
    (hf : f k = .error e) (hp : pred e = false) :
    doRetryLoop cfg pred f sample clock deadline (fuel + 1) k d =
      ⟨.raised e, k + 1, []⟩ := by
  simp [doRetryLoop, hf, hp]

/-- A call whose exception the predicate accepts, when the deliberation
grants a delay w, sleeps w and continues the loop with the delay base
multiplied by the factor. -/
theorem doRetryLoop_step_retry {E A : Type} (cfg : BackoffCfg)
    (pred : E → Bool) (f : Nat → Except E A) (sample : Nat → ℚ → ℚ)
    (clock : Nat → ℚ) (deadline : Option ℚ) (fuel k : Nat) (d : ℚ) (e : E)
    (w : ℚ) (hf : f k = .error e) (hp : pred e = true)
    (hd : deliberateNextRetry cfg (min (sample k (d * 2)) cfg.maximumDelay)
      deadline (clock (k + 1)) e = .ok w) :
    doRetryLoop cfg pred f sample clock deadline (fuel + 1) k d =
      ⟨(doRetryLoop cfg pred f sample clock deadline fuel (k + 1)
          (d * cfg.factor)).result,
        (doRetryLoop cfg pred f sample clock deadline fuel (k + 1)
          (d * cfg.factor)).calls,
        w :: (doRetryLoop cfg pred f sample clock deadline fuel (k + 1)
          (d * cfg.factor)).sleeps⟩ := by
  simp [doRetryLoop, hf, hp, hd]

/-- A call whose exception the predicate accepts, when the deliberation
raises RetryError, ends the loop with that failure. -/
theorem doRetryLoop_step_exhausted {E A : Type} (cfg : BackoffCfg)
    (pred : E → Bool) (f : Nat → Except E A) (sample : Nat → ℚ → ℚ)
    (clock : Nat → ℚ) (deadline : Option ℚ) (fuel k : Nat) (d : ℚ) (e : E)
    (rf : RetryFailure E) (hf : f k = .error e) (hp : pred e = true)
    (hd : deliberateNextRetry cfg (min (sample k (d * 2)) cfg.maximumDelay)
      deadline (clock (k + 1)) e = .error rf) :
    doRetryLoop cfg pred f sample clock deadline (fuel + 1) k d =
      ⟨.retryFailed rf, k + 1, []⟩ := by
  simp [doRetryLoop, hf, hp, hd]

/-- C7: with a deadline in effect after a predicate-accepted failure: if the
deadline has already passed, the wrapper abandons retrying and raises a
RetryError whose recorded cause is the last underlying exception and whose
message interpolates the configured (elapsed) timeout; otherwise the next
delay is clamped to at most the time remaining until the deadline, so the
next attempt starts no later than the deadline. The last conjunct shows the
abandonment end to end through one wrapper invocation. -/
theorem retry_deadline_enforcement {E A : Type} (cfg : BackoffCfg)
    (d dl now : ℚ) (e : E) (pred : E → Bool) (f : Nat → Except E A)
    (sample : Nat → ℚ → ℚ) (clock : Nat → ℚ) (m : Nat) :
    (dl < now →
      deliberateNextRetry cfg d (some dl) now e = .error ⟨e, cfg.timeout⟩)
    ∧ (¬ dl < now →
        deliberateNextRetry cfg d (some dl) now e = .ok (min (dl - now) d)
        ∧ now + min (dl - now) d ≤ dl ∧ min (dl - now) d ≤ d)
    ∧ (f 0 = .error e → pred e = true →
        calculateDeadlineTime cfg (clock 0) = some dl → dl < clock 1 →
        doRetry cfg pred f sample clock (m + 1) =
          ⟨.retryFailed ⟨e, cfg.timeout⟩, 1, []⟩) := by
  refine ⟨?_, ?_, ?_⟩
  · intro h
    simp [deliberateNextRetry, h]
  · intro h
    refine ⟨by simp [deliberateNextRetry, h], ?_, min_le_right _ _⟩
    have h1 : min (dl - now) d ≤ dl - now := min_le_left _ _
    linarith
  · intro hf hp hdl hlt
    have hd : deliberateNextRetry cfg
        (min (sample 0 (cfg.initialDelay * 2)) cfg.maximumDelay)
        (calculateDeadlineTime cfg (clock 0)) (clock 1) e =
          .error ⟨e, cfg.timeout⟩ := by
      rw [hdl]
      simp [deliberateNextRetry, hlt]
    exact doRetryLoop_step_exhausted cfg pred f sample clock
      (calculateDeadlineTime cfg (clock 0)) m 0 cfg.initialDelay e
      ⟨e, cfg.timeout⟩ hf hp hd

/-- Witness for C7: deadline 100 with now 200 (already passed) raises the
failure carrying the cause and the timeout; now 50 clamps the delay; and a
full invocation with deadline 300 and a clock past it after the first
failure abandons with RetryError after exactly one call. -/
theorem retry_deadline_enforcement_witness :
    deliberateNextRetry ⟨2, 60, some 300, 2⟩ 5 (some 100) 200 9 =
        .error ⟨9, some 300⟩
    ∧ deliberateNextRetry ⟨2, 60, some 300, 2⟩ 5 (some 100) 50 9 =
        .ok (min (100 - 50) 5)
    ∧ doRetry ⟨2, 60, some 300, 2⟩ (fun _ => true)
        (fun _ => (Except.error 9 : Except ℕ ℕ)) (fun _ hi => hi / 2)
        (fun i => if i = 0 then (0 : ℚ) else 400) 1 =
      ⟨.retryFailed ⟨9, some 300⟩, 1, []⟩ := by
  refine ⟨?_, ?_, ?_⟩
  · exact (retry_deadline_enforcement ⟨2, 60, some 300, 2⟩ 5 100 200 9
      (fun _ => true) (fun _ => (Except.error 9 : Except ℕ ℕ))
      (fun _ hi => hi / 2) (fun i => if i = 0 then (0 : ℚ) else 400) 0).1
      (by norm_num)
  · exact ((retry_deadline_enforcement ⟨2, 60, some 300, 2⟩ 5 100 50 9
      (fun _ => true) (fun _ => (Except.error 9 : Except ℕ ℕ))
      (fun _ hi => hi / 2) (fun i => if i = 0 then (0 : ℚ) else 400) 0).2.1
      (by norm_num)).1
  · exact (retry_deadline_enforcement ⟨2, 60, some 300, 2⟩ 5 300 200 9
      (fun _ => true) (fun _ => (Except.error 9 : Except ℕ ℕ))
      (fun _ hi => hi / 2) (fun i => if i = 0 then (0 : ℚ) else 400) 0).2.2
      rfl rfl (by norm_num [calculateDeadlineTime]) (by norm_num)

/-- C3: three facts about one wrapper invocation. First, a wrapped callable
that fails twice with predicate-accepted exceptions and succeeds on its
third call (with the deadline not yet passed at the two deliberations)
makes the wrapper return the success value after exactly three calls.
Second, a call whose exception the predicate rejects propagates that
original exception after exactly one call, with no sleeping. Third, a call
that succeeds returns its result at once after exactly one call with no
delay slept. -/
theorem retry_call_count_semantics {E A : Type} (cfg : BackoffCfg)
    (pred : E → Bool) (f : Nat → Except E A) (sample : Nat → ℚ → ℚ)
    (clock : Nat → ℚ) (m : Nat) (a : A) (e0 e1 er : E) :
    (f 0 = .error e0 → f 1 = .error e1 → pred e0 = true → pred e1 = true →
      f 2 = .ok a →
      (∀ t, calculateDeadlineTime cfg (clock 0) = some t →
        clock 1 ≤ t ∧ clock 2 ≤ t) →
      (doRetry cfg pred f sample clock (m + 3)).result = .ok a
      ∧ (doRetry cfg pred f sample clock (m + 3)).calls = 3)
    ∧ (f 0 = .error er → pred er = false →
        (doRetry cfg pred f sample clock (m + 1)).result = .raised er
        ∧ (doRetry cfg pred f sample clock (m + 1)).calls = 1
        ∧ (doRetry cfg pred f sample clock (m + 1)).sleeps = [])
    ∧ (f 0 = .ok a →
        doRetry cfg pred f sample clock (m + 1) = ⟨.ok a, 1, []⟩) := by
  refine ⟨?_, ?_, ?_⟩
  · intro h0 h1 hp0 hp1 h2 hdl
    have hdel : ∀ (k : Nat) (dd : ℚ) (e : E), k = 0 ∨ k = 1 →
        ∃ w, deliberateNextRetry cfg dd (calculateDeadlineTime cfg (clock 0))
          (clock (k + 1)) e = .ok w := by
      intro k dd e hk
      rcases hc : calculateDeadlineTime cfg (clock 0) with _ | t
      · exact ⟨dd, rfl⟩
      · have hle : clock (k + 1) ≤ t := by
          rcases hk with hk | hk <;> subst hk
          · exact (hdl t hc).1
          · exact (hdl t hc).2
        refine ⟨min (t - clock (k + 1)) dd, ?_⟩
        simp [deliberateNextRetry, not_lt.mpr hle]
    obtain ⟨w0, hw0⟩ := hdel 0
      (min (sample 0 (cfg.initialDelay * 2)) cfg.maximumDelay) e0 (Or.inl rfl)
    obtain ⟨w1, hw1⟩ := hdel 1
      (min (sample 1 (cfg.initialDelay * cfg.factor * 2)) cfg.maximumDelay)
      e1 (Or.inr rfl)
    have hstep1 : doRetry cfg pred f sample clock (m + 3) =
        ⟨(doRetryLoop cfg pred f sample clock
            (calculateDeadlineTime cfg (clock 0)) (m + 2) 1
            (cfg.initialDelay * cfg.factor)).result,
          (doRetryLoop cfg pred f sample clock
            (calculateDeadlineTime cfg (clock 0)) (m + 2) 1
            (cfg.initialDelay * cfg.factor)).calls,
          w0 :: (doRetryLoop cfg pred f sample clock
            (calculateDeadlineTime cfg (clock 0)) (m + 2) 1
            (cfg.initialDelay * cfg.factor)).sleeps⟩ :=
      doRetryLoop_step_retry cfg pred f sample clock
        (calculateDeadlineTime cfg (clock 0)) (m + 2) 0 cfg.initialDelay e0
        w0 h0 hp0 hw0
    have hstep2 : doRetryLoop cfg pred f sample clock
        (calculateDeadlineTime cfg (clock 0)) (m + 2) 1
        (cfg.initialDelay * cfg.factor) =
        ⟨(doRetryLoop cfg pred f sample clock
            (calculateDeadlineTime cfg (clock 0)) (m + 1) 2
            (cfg.initialDelay * cfg.factor * cfg.factor)).result,
          (doRetryLoop cfg pred f sample clock
            (calculateDeadlineTime cfg (clock 0)) (m + 1) 2
            (cfg.initialDelay * cfg.factor * cfg.factor)).calls,
          w1 :: (doRetryLoop cfg pred f sample clock
            (calculateDeadlineTime cfg (clock 0)) (m + 1) 2
            (cfg.initialDelay * cfg.factor * cfg.factor)).sleeps⟩ :=
      doRetryLoop_step_retry cfg pred f sample clock
        (calculateDeadlineTime cfg (clock 0)) (m + 1) 1
        (cfg.initialDelay * cfg.factor) e1 w1 h1 hp1 hw1
    have hstep3 : doRetryLoop cfg pred f sample clock
        (calculateDeadlineTime cfg (clock 0)) (m + 1) 2
        (cfg.initialDelay * cfg.factor * cfg.factor) = ⟨.ok a, 3, []⟩ :=
      doRetryLoop_step_ok cfg pred f sample clock
        (calculateDeadlineTime cfg (clock 0)) m 2
        (cfg.initialDelay * cfg.factor * cfg.factor) a h2
    constructor
    · simp [hstep1, hstep2, hstep3]
    · simp [hstep1, hstep2, hstep3]
  · intro hf hp
    have h := doRetryLoop_step_reject cfg pred f sample clock
      (calculateDeadlineTime cfg (clock 0)) m 0 cfg.initialDelay er hf hp
    have hd : doRetry cfg pred f sample clock (m + 1) =
        ⟨.raised er, 1, []⟩ := h
    simp [hd]
  · intro hf
    exact doRetryLoop_step_ok cfg pred f sample clock
      (calculateDeadlineTime cfg (clock 0)) m 0 cfg.initialDelay a hf

/-- Witness for C3: a callable failing on calls 0 and 1 with a retryable
exception and succeeding with 42 on call 2 returns 42 after three calls; a
predicate-rejected failure propagates after one call; an immediately
successful call returns after one call with nothing slept. -/
theorem retry_call_count_semantics_witness :
    ((doRetry ⟨2, 60, some 300, 2⟩ (fun e => e == 1)
        (fun k => if k < 2 then .error 1 else .ok 42) (fun _ hi => hi / 2)
        (fun _ => 0) 3).result = .ok 42
      ∧ (doRetry ⟨2, 60, some 300, 2⟩ (fun e => e == 1)
          (fun k => if k < 2 then .error 1 else .ok 42) (fun _ hi => hi / 2)
          (fun _ => 0) 3).calls = 3)
    ∧ (doRetry ⟨2, 60, some 300, 2⟩ (fun e => e == 1)
        (fun _ => (Except.error 0 : Except ℕ ℕ)) (fun _ hi => hi / 2)
        (fun _ => 0) 1).result = .raised 0
    ∧ doRetry ⟨2, 60, some 300, 2⟩ (fun e => e == 1)
        (fun _ => .ok (42 : ℕ)) (fun _ hi => hi / 2) (fun _ => 0) 1 =
      ⟨.ok 42, 1, []⟩ := by
  refine ⟨?_, ?_, ?_⟩
  · exact (retry_call_count_semantics ⟨2, 60, some 300, 2⟩ (fun e => e == 1)
      (fun k => if k < 2 then .error 1 else .ok 42) (fun _ hi => hi / 2)
      (fun _ => 0) 0 42 1 1 0).1 rfl rfl rfl rfl rfl
      (by
        intro t ht
        simp [calculateDeadlineTime] at ht
        constructor <;> rw [← ht] <;> norm_num)
  · exact ((retry_call_count_semantics ⟨2, 60, some 300, 2⟩
      (fun e => e == 1) (fun _ => (Except.error 0 : Except ℕ ℕ))
      (fun _ hi => hi / 2)
      (fun _ => 0) 0 42 1 1 0).2.1 rfl rfl).1
  · exact (retry_call_count_semantics ⟨2, 60, some 300, 2⟩ (fun e => e == 1)
      (fun _ => Except.ok (42 : ℕ)) (fun _ hi => hi / 2)
      (fun _ => 0) 0 42 1 1 0).2.2 rfl

/-- Reading any key after a dict write: the written key sees the new value,
every other key is untouched. -/
theorem lookupItem_storeItem {V : Type} (items : List (String × V))
    (k s : String) (v : V) :
    lookupItem (storeItem items k v) s =
      if k = s then some v else lookupItem items s := by
  induction items with
  | nil => simp [storeItem, lookupItem]
  | cons e rest ih =>
      by_cases he : e.1 = k
      · by_cases hs : k = s
        · simp [storeItem, lookupItem, he, hs]
        · have hes : ¬ e.1 = s := by rw [he]; exact hs
          simp [storeItem, lookupItem, he, hs, hes]
      · by_cases hs2 : e.1 = s
        · have hks : ¬ k = s := fun hh => he (hs2.trans hh.symm)
          have hsk : ¬ s = k := fun hh => hks hh.symm
          simp [storeItem, lookupItem, he, hs2, hks, hsk]
        · simp [storeItem, lookupItem, he, hs2, ih]

/-- A key is absent from an association list exactly when it is not among
the stored keys. -/
theorem lookupItem_none_iff {V : Type} (l : List (String × V)) (s : String) :
    lookupItem l s = none ↔ s ∉ l.map Prod.fst := by
  induction l with
  | nil => simp [lookupItem]
  | cons e rest ih =>
      by_cases h : e.1 = s
      · simp [lookupItem, h]
      · have h2 : ¬ s = e.1 := fun hh => h hh.symm
        simp [lookupItem, h, h2, ih]

/-- Effect of one grouping step on the group stored under a given setting
name: the step appends its initializer to the group of its own setting and
leaves every other group unchanged. -/
theorem lookupItem_addToGroups {B : Type}
    (gs : List (String × List (SettingInitializer B)))
    (i : SettingInitializer B) (s : String) :
    lookupItem (addToGroups gs i) s =
      if i.setting = s then some ((lookupItem gs s).getD [] ++ [i])
      else lookupItem gs s := by
  induction gs with
  | nil => by_cases h : i.setting = s <;> simp [addToGroups, lookupItem, h]
  | cons g rest ih =>
      by_cases hg : g.1 = i.setting
      · by_cases hs : g.1 = s
        · have his : i.setting = s := by rw [← hg]; exact hs
          simp [addToGroups, lookupItem, hg, hs, his]
        · have his : ¬ i.setting = s := by rw [← hg]; exact hs
          simp [addToGroups, lookupItem, hg, hs, his]
      · by_cases hs : g.1 = s
        · have his : ¬ i.setting = s := fun hh => hg (hs.trans hh.symm)
          have hsi : ¬ s = i.setting := fun hh => his hh.symm
          simp [addToGroups, lookupItem, hg, hs, his, hsi]
        · simp [addToGroups, lookupItem, hg, hs, ih]

/-- The group stored for a setting name after grouping a whole initializer
list onto an accumulator: it is the accumulated group extended by the
initializers for that name, in encounter order (List.filter preserves
order). -/
theorem lookupItem_foldl_addToGroups {B : Type}
    (inits : List (SettingInitializer B)) :
    ∀ (gs : List (String × List (SettingInitializer B))) (s : String),
      lookupItem (inits.foldl addToGroups gs) s =
        match inits.filter (fun i => i.setting = s) with
        | [] => lookupItem gs s
        | fs => some ((lookupItem gs s).getD [] ++ fs) := by
  induction inits with
  | nil => intro gs s; rfl
  | cons i is ih =>
      intro gs s
      have hstep := lookupItem_addToGroups gs i s
      by_cases hi : i.setting = s
      · have hf : (i :: is).filter (fun j => j.setting = s) =
            i :: is.filter (fun j => j.setting = s) := by
          simp [List.filter_cons, hi]
        rw [List.foldl_cons, ih (addToGroups gs i) s, hf]
        rcases hfs : is.filter (fun j => j.setting = s) with _ | ⟨f, fs⟩ <;>
          rw [hfs] <;> simp [hstep, hi]
      · have hf : (i :: is).filter (fun j => j.setting = s) =
            is.filter (fun j => j.setting = s) := by
          simp [List.filter_cons, hi]
        rw [List.foldl_cons, ih (addToGroups gs i) s, hf, hstep, if_neg hi]

/-- The keys after one grouping step: unchanged when the setting already has
a group, extended by the new setting otherwise. -/
theorem keys_addToGroups {B : Type}
    (gs : List (String × List (SettingInitializer B)))
    (i : SettingInitializer B) :
    (addToGroups gs i).map Prod.fst =
      if (lookupItem gs i.setting).isSome then gs.map Prod.fst
      else gs.map Prod.fst ++ [i.setting] := by
  induction gs with
  | nil => simp [addToGroups, lookupItem]
  | cons g rest ih =>
      by_cases hg : g.1 = i.setting
      · simp [addToGroups, lookupItem, hg]
      · by_cases h2 : (lookupItem rest i.setting).isSome <;>
          simp [addToGroups, lookupItem, hg, ih, h2]

/-- Grouping keeps the group keys free of duplicates. -/
theorem nodup_keys_foldl_addToGroups {B : Type}
    (inits : List (SettingInitializer B)) :
    ∀ gs : List (String × List (SettingInitializer B)),
      (gs.map Prod.fst).Nodup →
      ((inits.foldl addToGroups gs).map Prod.fst).Nodup := by
  induction inits with
  | nil => intro gs h; exact h
  | cons i is ih =>
      intro gs h
      refine ih (addToGroups gs i) ?_
      rw [keys_addToGroups]
      by_cases h2 : (lookupItem gs i.setting).isSome
      · simp [h2, h]
      · have hnotin : i.setting ∉ gs.map Prod.fst := by
          rw [← lookupItem_none_iff]
          rcases hx : lookupItem gs i.setting with _ | v
          · rfl
          · rw [hx] at h2; simp at h2
        simp [h2, List.nodup_append, h, hnotin]

/-- The keys of the grouped initializers are free of duplicates. -/
theorem nodup_keys_groupRelated {B : Type}
    (inits : List (SettingInitializer B)) :
    ((groupRelated inits).map Prod.fst).Nodup :=
  nodup_keys_foldl_addToGroups inits [] (by simp)

/-- One grouping step never stores an empty group. -/
theorem addToGroups_nonempty {B : Type}
    (gs : List (String × List (SettingInitializer B)))
    (i : SettingInitializer B) (h : ∀ g ∈ gs, g.2 ≠ []) :
    ∀ g ∈ addToGroups gs i, g.2 ≠ [] := by
  induction gs with
  | nil =>
      intro g hg
      simp [addToGroups] at hg
      simp [hg]
  | cons g0 rest ih =>
      intro g hg
      by_cases hc : g0.1 = i.setting
      · simp only [addToGroups, hc, if_pos, List.mem_cons] at hg
        rcases hg with hg | hg
        · simp [hg]
        · exact h g (by simp [hg])
      · simp only [addToGroups, hc, if_neg, ite_false, List.mem_cons] at hg
        rcases hg with hg | hg
        · exact h g (by simp [hg])
        · exact ih (fun g2 hgg => h g2 (by simp [hgg])) g hg

/-- Every group produced by _group_related_initializers is nonempty, so the
pipe run by _run_initializers always receives a nonempty task list, as
Pipe.__init__ requires. -/
theorem groupRelated_mem_nonempty {B : Type}
    (inits : List (SettingInitializer B)) :
    ∀ g ∈ groupRelated inits, g.2 ≠ [] := by
  have aux : ∀ (is : List (SettingInitializer B))
      (gs : List (String × List (SettingInitializer B))),
      (∀ g ∈ gs, g.2 ≠ []) → ∀ g ∈ is.foldl addToGroups gs, g.2 ≠ [] := by
    intro is
    induction is with
    | nil => intro gs h; exact h
    | cons i is ih => intro gs h; exact ih _ (addToGroups_nonempty gs i h)
  exact aux inits [] (by simp)

/-- Running grouped initializers with duplicate-free keys: the setting of a
group receives the pipe of its initializers applied to the raw value the
settings dict held before the run, and every other setting keeps its
value. -/
theorem lookupItem_runGroups {B : Type}
    (groups : List (String × List (SettingInitializer B))) :
    ∀ (st : List (String × Option B)) (s : String),
      (groups.map Prod.fst).Nodup →
      lookupItem (runGroups st groups) s =
        match lookupItem groups s with
        | some grp => some (pipeExecute grp ((lookupItem st s).getD none))
        | none => lookupItem st s := by
  induction groups with
  | nil => intro st s _; rfl
  | cons g rest ih =>
      intro st s hnd
      have hnd2 : (rest.map Prod.fst).Nodup := (List.nodup_cons.mp hnd).2
      have hknotin : g.1 ∉ rest.map Prod.fst := (List.nodup_cons.mp hnd).1
      have hstep : runGroups st (g :: rest) =
          runGroups (storeItem st g.1
            (pipeExecute g.2 ((lookupItem st g.1).getD none))) rest := rfl
      rw [hstep, ih _ s hnd2]
      by_cases hgs : g.1 = s
      · have hrest : lookupItem rest s = none := by
          rw [lookupItem_none_iff]
          rw [← hgs]
          exact hknotin
        rw [hrest]
        simp [lookupItem, hgs, lookupItem_storeItem]
      · simp [lookupItem, hgs, lookupItem_storeItem]

/-- C5: for a config constructed from a raw settings mapping and an ordered
initializer list, the initializers sharing a setting name form one group in
encounter order (the in-order filter of the list by that name) and run as a
single sequential pipeline at construction: the pipe receives the raw
stored value of the setting, or None when the setting is absent, threads
each output into the next initializer, and its final output becomes the
permanent value of the setting — in particular a setting absent from the
input that has at least one initializer is present afterwards with the
pipeline output as its value. A setting with no initializer keeps its raw
entry. -/
theorem config_initializer_pipeline {B : Type}
    (settings : List (String × Option B))
    (inits : List (SettingInitializer B)) (s : String) :
    match inits.filter (fun i => i.setting = s) with
    | [] => lookupItem (configOf settings inits) s = lookupItem settings s
    | f :: fs =>
        lookupItem (configOf settings inits) s =
          some (pipeExecute (f :: fs) ((lookupItem settings s).getD none)) := by
  have hnd := nodup_keys_groupRelated inits
  have hrun := lookupItem_runGroups (groupRelated inits) settings s hnd
  unfold groupRelated at hrun
  have hgrp := lookupItem_foldl_addToGroups inits [] s
  rcases hf : inits.filter (fun i => i.setting = s) with _ | ⟨f, fs⟩ <;>
    rw [hf] at hgrp ⊢
  · simp only [lookupItem] at hgrp
    rw [hgrp] at hrun
    exact hrun
  · simp only [lookupItem, Option.getD_none, List.nil_append] at hgrp
    rw [hgrp] at hrun
    exact hrun

/-- Writes through the self reference leave every other reference
unchanged. -/
theorem runInitializersRef_frame {B : Type} (selfRef r : Nat)
    (hne : r ≠ selfRef)
    (groups : List (String × List (SettingInitializer B))) :
    ∀ acc : Store B,
      (runInitializersRef selfRef groups acc).mem r = acc.mem r := by
  induction groups with
  | nil => intro acc; rfl
  | cons g rest ih =>
      intro acc
      have hstep : runInitializersRef selfRef (g :: rest) acc =
          runInitializersRef selfRef rest
            (writeRef acc selfRef (storeItem (acc.mem selfRef) g.1
              (pipeExecute g.2
                ((lookupItem (acc.mem selfRef) g.1).getD none)))) := rfl
      rw [hstep, ih]
      simp [writeRef, hne]

/-- C10: constructing a config never mutates the caller settings mapping.
The constructor copies the mapping into a freshly allocated private dict and
_run_initializers writes final values only through that private reference,
so after construction the dict the caller passed in holds exactly what it
held before. -/
theorem config_construction_preserves_caller_mapping {B : Type}
    (st : Store B) (settingsRef : Nat)
    (inits : List (SettingInitializer B)) (h : settingsRef < st.next) :
    ((configImpInitRef st settingsRef inits).1).mem settingsRef =
      st.mem settingsRef := by
  have hne : settingsRef ≠ st.next := Nat.ne_of_lt h
  have h1 : ((configImpInitRef st settingsRef inits).1).mem settingsRef =
      ((allocRef st (st.mem settingsRef)).1).mem settingsRef :=
    runInitializersRef_frame st.next settingsRef hne (groupRelated inits) _
  rw [h1]
  simp [allocRef, hne]

/-- Witness for C10: a one-dict heap whose caller dict maps A to 1; the
constructor runs an initializer that rewrites A to 2 inside the config, yet
the caller dict still maps A to 1. -/
theorem config_construction_preserves_caller_mapping_witness :
    (0 : Nat) < 1
    ∧ ((configImpInitRef (⟨fun _ => [("A", some 1)], 1⟩ : Store ℕ) 0
        [⟨"A", fun _ => some 2⟩]).1).mem 0 = [("A", some 1)] :=
  ⟨by decide,
    config_construction_preserves_caller_mapping
      ⟨fun _ => [("A", some 1)], 1⟩ 0 [⟨"A", fun _ => some 2⟩] (by decide)⟩

/-- C9: SettingRequiredError computes the default text
Setting (quote)name(quote) is required. into a local, but hands the parent
constructor the original message parameter; with the message omitted the
error therefore carries no message (and an empty Exception arg), not the
computed default text. -/
theorem setting_required_error_drops_default_message (s : String)
    (m : Option String) (h : ¬ s = "") :
    mkSettingRequiredError (some s) m = .ok ⟨s, mkSGHIError m⟩
    ∧ mkSettingRequiredError (some s) none = .ok ⟨s, ⟨none, ""⟩⟩
    ∧ (⟨none, ""⟩ : SGHIErrorData).message ≠
        some (settingRequiredDefaultMsg s) := by
  refine ⟨?_, ?_, ?_⟩
  · simp [mkSettingRequiredError, h]
  · simp [mkSettingRequiredError, h, mkSGHIError]
  · simp

/-- Witness for C9 at the setting name PORT with the message omitted. -/
theorem setting_required_error_drops_default_message_witness :
    mkSettingRequiredError (some "PORT") none = .ok ⟨"PORT", ⟨none, ""⟩⟩ :=
  (setting_required_error_drops_default_message "PORT" none (by decide)).2.1

end SGHI
